import Mathlib

/-!
# Verification of the Atlona connection broker (`src/backend/atlona_broker.py`)

A shallow embedding of the broker: the mutable object state of `AtlonaBroker`
becomes an explicit state record, each `async` method becomes a state
transformer, and the outcomes of external I/O (TCP connect results, device
replies, read timeouts) are supplied by explicit environment/outcome values.
Time units model seconds: the Python floats 1.0 and 30.0 for the reconnect
backoff are whole numbers, so delays are `Nat`.

The client-facing concurrency of `send_command` (many client tasks contending
for the single `_command_lock`) is modelled separately as a labelled transition
system over task phases, executed over arbitrary interleavings.
-/

namespace AtlonaBroker

/-! ### Python string primitives

`str.strip()`, `str.upper()` and `str.endswith` are modelled by structural
functions over the character list of a `String` (the commands involved are
ASCII), so that every definition evaluates inside the kernel. -/

/-- The whitespace characters `str.strip()` removes (ASCII range). -/
def isPyWS (c : Char) : Bool :=
  c == ' ' || c == '\t' || c == '\n' || c == '\r' || c == '\x0b' || c == '\x0c'

/-- Python `s.strip()`: drop leading and trailing whitespace. -/
def pyStrip (s : String) : String :=
  ⟨((s.data.dropWhile isPyWS).reverse.dropWhile isPyWS).reverse⟩

/-- Uppercase one ASCII character (identity elsewhere). -/
def upperChar (c : Char) : Char :=
  if 'a' ≤ c && c ≤ 'z' then Char.ofNat (c.toNat - 32) else c

/-- Python `s.upper()` on ASCII text. -/
def pyUpper (s : String) : String := ⟨s.data.map upperChar⟩

/-- Python `s.endswith('\r\n')`. -/
def endsWithCRLF (s : String) : Bool :=
  match s.data.reverse with
  | '\n' :: '\r' :: _ => true
  | _ => false

/-- Whether a client line begins, case-insensitively (after stripping), with
the reserved prefix `BROKER:`. -/
def brokerPrefixed (data : String) : Bool :=
  "BROKER:".data.isPrefixOf (pyUpper (pyStrip data)).data

/-- Mirror of the `BrokerStats` dataclass (mutable statistics fields only;
the immutable `started_at` / host / port fields carry no behaviour and are
omitted). Timestamps and error messages are the strings the code stores. -/
structure BrokerStats where
  connected : Bool
  connection_attempts : Nat
  successful_connections : Nat
  commands_processed : Nat
  commands_failed : Nat
  active_clients : Nat
  last_command_at : Option String
  last_error : Option String
  deriving Repr, DecidableEq

/-- Mirror of the mutable state of an `AtlonaBroker` instance.
`hasWriter` models `self._writer is not None` (the `_reader` handle always
tracks it); `connecting` is `self._connecting`; `reconnect_delay` is
`self._reconnect_delay` in whole time units; `clients` is the
`self._active_clients` set, as a duplicate-free list of client ids. -/
structure BrokerState where
  connected : Bool
  connecting : Bool
  hasWriter : Bool
  stats : BrokerStats
  reconnect_delay : Nat
  clients : List String
  deriving Repr, DecidableEq

/-- `AtlonaBroker.is_connected`: `self._connected and self._writer is not None`. -/
def is_connected (s : BrokerState) : Bool :=
  s.connected && s.hasWriter

/-- The state built by `AtlonaBroker.__init__`. -/
def initState : BrokerState :=
  { connected := false
    connecting := false
    hasWriter := false
    stats :=
      { connected := false
        connection_attempts := 0
        successful_connections := 0
        commands_processed := 0
        commands_failed := 0
        active_clients := 0
        last_command_at := none
        last_error := none }
    reconnect_delay := 1
    clients := [] }

/-- Result of the physical TCP connect attempt inside `connect()`:
the `asyncio.open_connection` call (with its banner read) either succeeds,
times out (`asyncio.TimeoutError`), or raises some other exception whose
text is recorded. -/
inductive ConnectOutcome where
  | success
  | timeoutErr
  | connErr (msg : String)
  deriving Repr, DecidableEq

/-- `AtlonaBroker.connect` as a state transformer, given the outcome of the
physical attempt. Returns the `bool` result and the new state. The body runs
under `self._connection_lock`, so it is atomic with respect to the other
lock-guarded transitions. On success the reader/writer handles are installed,
`_connected` and `stats.connected` are set, the success counter is bumped and
the backoff delay is reset to 1; on failure `last_error` is recorded and the
connection state is left disconnected. `connection_attempts` is incremented
on every real attempt, before the outcome is known. -/
def connect (o : ConnectOutcome) (s : BrokerState) : Bool × BrokerState :=
  if s.connected then
    (true, s)
  else if s.connecting then
    (false, s)
  else
    match o with
    | .success =>
        (true,
          { s with
            connected := true
            hasWriter := true
            reconnect_delay := 1
            stats :=
              { s.stats with
                connected := true
                connection_attempts := s.stats.connection_attempts + 1
                successful_connections := s.stats.successful_connections + 1 } })
    | .timeoutErr =>
        (false,
          { s with
            stats :=
              { s.stats with
                connection_attempts := s.stats.connection_attempts + 1
                last_error := some "Connection timeout" } })
    | .connErr msg =>
        (false,
          { s with
            stats :=
              { s.stats with
                connection_attempts := s.stats.connection_attempts + 1
                last_error := some msg } })

/-- `AtlonaBroker.disconnect`: closes and clears the handles, clears the
connected flags. Idempotent. -/
def disconnect (s : BrokerState) : BrokerState :=
  { s with
    connected := false
    hasWriter := false
    stats := { s.stats with connected := false } }

/-- The `while not self._connected` loop of `AtlonaBroker.reconnect`, given
the list of outcomes of the successive physical connect attempts. Returns the
final state together with the list of delays slept (one `asyncio.sleep` per
iteration, before the attempt). The loop body doubles `_reconnect_delay`
after each failed attempt, capped at `_max_reconnect_delay = 30`; the model
returns when the outcome list is exhausted (the real loop would keep
waiting for further outcomes). -/
def reconnectLoop : List ConnectOutcome → BrokerState → BrokerState × List Nat
  | [], s => (s, [])
  | o :: os, s =>
    if s.connected then
      (s, [])
    else
      let d := s.reconnect_delay
      match connect o s with
      | (true, s1) => (s1, [d])
      | (false, s1) =>
          let s2 := { s1 with reconnect_delay := min (s1.reconnect_delay * 2) 30 }
          let r := reconnectLoop os s2
          (r.1, d :: r.2)

/-- `AtlonaBroker.reconnect`: unconditional `disconnect()` followed by the
backoff loop. -/
def reconnect (outs : List ConnectOutcome) (s : BrokerState) :
    BrokerState × List Nat :=
  reconnectLoop outs (disconnect s)

/-- The delay sequence the spec predicts from a starting delay `d`:
`n + 1` sleeps (for `n` failed attempts followed by one more attempt),
doubling and capping at 30. -/
def expectedDelays : Nat → Nat → List Nat
  | 0, d => [d]
  | n + 1, d => d :: expectedDelays n (min (d * 2) 30)

/-! ## `send_command` -/

/-- Outcome of the write/settle/read exchange inside `send_command`, once the
command has been written (or attempted): the device replies with raw bytes
`data`, or the read times out with no data (`asyncio.TimeoutError`, swallowed
by the code), or an exception is raised during the write (`writeErr`) or the
read (`readErr`), caught by the outer `except` clause. -/
inductive ExchangeOutcome where
  | reply (data : String)
  | readTimeout
  | writeErr (msg : String)
  | readErr (msg : String)
  deriving Repr, DecidableEq

/-- The environment a single `send_command` call observes: the outcome of the
inline `connect()` (used only if not connected on entry), the outcome of the
exchange, and the `datetime.now().isoformat()` value recorded on success. -/
structure SendEnv where
  connectOutcome : ConnectOutcome
  exchange : ExchangeOutcome
  now : String
  deriving Repr, DecidableEq

/-- Observable events of one `send_command` call, in order: the command-lock
acquisition/release bracketing the whole body, an inline connect attempt,
the best-effort drain of stale buffered bytes, the device write of the
terminated command line, the fixed settle sleep, the bounded read, and the
`asyncio.create_task(self.reconnect())` scheduling on the error path. -/
inductive Ev where
  | lockAcquire
  | connectAttempt
  | drainBuffer
  | write (data : String)
  | sleepSettle
  | readAttempt
  | scheduleReconnect
  | lockRelease
  deriving Repr, DecidableEq

/-- The line actually written: `cmd = command.strip()`, then `'\r\n'` is
appended when missing (after `strip` it is always missing, but the code
checks). -/
def formatCmd (command : String) : String :=
  let cmd := pyStrip command
  if endsWithCRLF cmd then cmd else cmd ++ "\r\n"

/-- Result record of one `send_command` call: the returned
`(success, response_or_error)` pair, the post-state, and the event trace. -/
structure SendResult where
  ok : Bool
  response : String
  state : BrokerState
  trace : List Ev
  deriving Repr, DecidableEq

/-- The `try` body of `send_command` after the connection is ensured: drain
stale bytes, write the terminated command, settle-sleep, read with timeout.
A reply (decoded and stripped) or a read timeout (empty response) both count
as success and bump `commands_processed` and `last_command_at`; an exception
during write or read bumps `commands_failed`, records `last_error`, schedules
a background reconnect, and returns the error text. -/
def exchangePhase (env : SendEnv) (command : String) (s : BrokerState)
    (evs : List Ev) : SendResult :=
  match env.exchange with
  | .reply data =>
      { ok := true
        response := pyStrip data
        state :=
          { s with
            stats :=
              { s.stats with
                commands_processed := s.stats.commands_processed + 1
                last_command_at := some env.now } }
        trace := evs ++ [.drainBuffer, .write (formatCmd command), .sleepSettle,
                         .readAttempt, .lockRelease] }
  | .readTimeout =>
      { ok := true
        response := ""
        state :=
          { s with
            stats :=
              { s.stats with
                commands_processed := s.stats.commands_processed + 1
                last_command_at := some env.now } }
        trace := evs ++ [.drainBuffer, .write (formatCmd command), .sleepSettle,
                         .readAttempt, .lockRelease] }
  | .writeErr msg =>
      { ok := false
        response := msg
        state :=
          { s with
            stats :=
              { s.stats with
                commands_failed := s.stats.commands_failed + 1
                last_error := some msg } }
        trace := evs ++ [.drainBuffer, .scheduleReconnect, .lockRelease] }
  | .readErr msg =>
      { ok := false
        response := msg
        state :=
          { s with
            stats :=
              { s.stats with
                commands_failed := s.stats.commands_failed + 1
                last_error := some msg } }
        trace := evs ++ [.drainBuffer, .write (formatCmd command), .sleepSettle,
                         .scheduleReconnect, .lockRelease] }

/-- `AtlonaBroker.send_command`, executed while holding `self._command_lock`
(the lock acquisition and release are the first and last trace events). If
`is_connected` is false a single inline `connect()` is attempted; when it
fails the call returns `(False, "Not connected to Atlona")` immediately,
touching neither the device nor the command counters. -/
def sendCommand (env : SendEnv) (s : BrokerState) (command : String) :
    SendResult :=
  if is_connected s then
    exchangePhase env command s [.lockAcquire]
  else
    match connect env.connectOutcome s with
    | (true, s1) => exchangePhase env command s1 [.lockAcquire, .connectAttempt]
    | (false, s1) =>
        { ok := false
          response := "Not connected to Atlona"
          state := s1
          trace := [.lockAcquire, .connectAttempt, .lockRelease] }

/-! ## `handle_client`: per-line dispatch and `BROKER:WAIT` -/

/-- Where one decoded client line is routed by the dispatch chain in
`handle_client`: skipped when empty, handled locally for the three exact
(case-insensitive) broker commands, otherwise forwarded to `send_command`. -/
inductive Route where
  | ignoreEmpty
  | brokerStatus
  | brokerReconnect
  | brokerWait
  | forward (cmd : String)
  deriving Repr, DecidableEq

/-- The dispatch chain of `handle_client` for one received chunk `data`:
`command = data.decode(...).strip()`; empty commands `continue`; then the
three `command.upper() == "BROKER:..."` comparisons in order; anything else
is forwarded to the Atlona via `send_command`. -/
def dispatch (data : String) : Route :=
  let command := pyStrip data
  if command = "" then .ignoreEmpty
  else if pyUpper command = "BROKER:STATUS" then .brokerStatus
  else if pyUpper command = "BROKER:RECONNECT" then .brokerReconnect
  else if pyUpper command = "BROKER:WAIT" then .brokerWait
  else .forward command

/-- The `BROKER:WAIT` polling loop: starting from `wait_count = w` with
`fuel = 30 - w` iterations still allowed by the `wait_count < 30` guard,
sleep one time unit and re-check while not connected. `conn t` is the value
of `is_connected` observed after `t` sleeps; the function returns the final
`wait_count`, which is also the number of sleeps performed. -/
def waitFromAux (conn : Nat → Bool) : Nat → Nat → Nat
  | w, 0 => w
  | w, fuel + 1 => if conn w then w else waitFromAux conn (w + 1) fuel

/-- The `BROKER:WAIT` loop from `wait_count = 0` (as `handle_client` runs
it): final `wait_count` after the guard `not is_connected and
wait_count < 30` stops the loop. -/
def waitFrom (conn : Nat → Bool) (w : Nat) : Nat :=
  waitFromAux conn w (30 - w)

/-- Number of 1-unit sleeps a `BROKER:WAIT` performs. -/
def waitSleeps (conn : Nat → Bool) : Nat :=
  waitFrom conn 0

/-- The reply line `BROKER:WAIT` writes to the client after the loop:
`OK: Connected` when `is_connected` holds at loop exit, else
`ERROR: Connection timeout`. -/
def waitReply (conn : Nat → Bool) : String :=
  if conn (waitFrom conn 0) then "OK: Connected" else "ERROR: Connection timeout"

/-- Client registration at the top of `handle_client`: add the id to
`self._active_clients` (a set: no duplicate) and refresh
`stats.active_clients` from the set size. -/
def clientJoin (cid : String) (s : BrokerState) : BrokerState :=
  let cs := if cid ∈ s.clients then s.clients else cid :: s.clients
  { s with clients := cs, stats := { s.stats with active_clients := cs.length } }

/-- Client unregistration in the `finally` block of `handle_client`:
`discard` the id and refresh `stats.active_clients` from the set size. -/
def clientLeave (cid : String) (s : BrokerState) : BrokerState :=
  let cs := s.clients.erase cid
  { s with clients := cs, stats := { s.stats with active_clients := cs.length } }

/-! ## All broker operations, for the statistics invariants -/

/-- One broker-level operation together with the external outcomes it
observes: everything that mutates `BrokerStats` in the source. -/
inductive BrokerOp where
  | opConnect (o : ConnectOutcome)
  | opDisconnect
  | opReconnect (outs : List ConnectOutcome)
  | opSend (env : SendEnv) (command : String)
  | opClientJoin (cid : String)
  | opClientLeave (cid : String)
  deriving Repr

/-- Effect of one operation on the broker state. -/
def applyOp : BrokerOp → BrokerState → BrokerState
  | .opConnect o, s => (connect o s).2
  | .opDisconnect, s => disconnect s
  | .opReconnect outs, s => (reconnect outs s).1
  | .opSend env cmd, s => (sendCommand env s cmd).state
  | .opClientJoin cid, s => clientJoin cid s
  | .opClientLeave cid, s => clientLeave cid s

/-- The active-client bookkeeping invariant: `stats.active_clients` equals
the size of the registered-client set, which holds no duplicates. -/
def clientsInv (s : BrokerState) : Prop :=
  s.stats.active_clients = s.clients.length ∧ s.clients.Nodup

/-! ## Concurrent clients and the command lock

Many client tasks run `send_command` concurrently; the `async with
self._command_lock` block serializes them. Each task's critical section,
in program order, is: acquire the lock, drain stale bytes from the shared
receive buffer, write its command (the device then appends its reply to the
buffer), read the buffer as the response and release the lock. The scheduler
may interleave *different* tasks' transitions arbitrarily; the lock
preconditions are exactly the ones `asyncio.Lock` enforces. -/

namespace Serial

/-- Where one client task stands inside `send_command`. -/
inductive Phase where
  | idle
  | acquired
  | drained
  | written
  | done (resp : String)
  deriving Repr, DecidableEq

/-- A phase inside the critical section (between acquire and release). -/
def midPhase : Phase → Prop
  | .acquired => True
  | .drained => True
  | .written => True
  | _ => False

/-- Global state: who holds the command lock, each task's phase (task `i` is
entry `i` of `phases`), and the shared receive buffer of the single upstream
connection (a list of byte chunks; it may hold stale unsolicited device
output). -/
structure SysState where
  lockHolder : Option Nat
  phases : List Phase
  buffer : List String
  deriving Repr, DecidableEq

/-- Scheduler choice: which task performs which transition next. -/
inductive Label where
  | acquire (i : Nat)
  | drain (i : Nat)
  | write (i : Nat)
  | readRelease (i : Nat)
  deriving Repr, DecidableEq

/-- What the single read of `send_command` returns: everything currently
buffered on the connection, concatenated. -/
def readAll (buf : List String) : String :=
  buf.foldl (fun a b => a ++ b) ""

/-- One scheduler step. `cmds i` is the command task `i` sends and
`dev c` the device's reply to command `c` (the device has no request ids:
it just answers what was last written). A label whose precondition fails
(lock busy, wrong phase) is not enabled and yields `none`. -/
def step (cmds : Nat → String) (dev : String → String) (l : Label)
    (s : SysState) : Option SysState :=
  match l with
  | .acquire i =>
      if s.lockHolder = none ∧ s.phases[i]? = some Phase.idle then
        some { s with lockHolder := some i, phases := s.phases.set i .acquired }
      else none
  | .drain i =>
      if s.lockHolder = some i ∧ s.phases[i]? = some Phase.acquired then
        some { s with buffer := [], phases := s.phases.set i .drained }
      else none
  | .write i =>
      if s.lockHolder = some i ∧ s.phases[i]? = some Phase.drained then
        some { s with buffer := s.buffer ++ [dev (cmds i)],
                      phases := s.phases.set i .written }
      else none
  | .readRelease i =>
      if s.lockHolder = some i ∧ s.phases[i]? = some Phase.written then
        some { lockHolder := none,
               phases := s.phases.set i (.done (readAll s.buffer)),
               buffer := [] }
      else none

/-- Run a whole schedule (an arbitrary interleaving of task transitions). -/
def run (cmds : Nat → String) (dev : String → String) :
    List Label → SysState → Option SysState
  | [], s => some s
  | l :: ls, s =>
      match step cmds dev l s with
      | none => none
      | some s1 => run cmds dev ls s1

/-- Initial state: no task in its critical section, lock free, and an
arbitrary backlog of stale device output in the receive buffer. -/
def initSys (n : Nat) (junk : List String) : SysState :=
  { lockHolder := none, phases := List.replicate n .idle, buffer := junk }

/-- The serialization invariant: (1) every task inside its critical section
is the lock holder; (2) once the holder has drained, the buffer is empty;
(3) once the holder has written, the buffer holds exactly the device's reply
to the holder's own command; (4) every completed task got the reply to its
own command. -/
def Inv (cmds : Nat → String) (dev : String → String) (s : SysState) : Prop :=
  (∀ (i : Nat) (p : Phase), s.phases[i]? = some p → midPhase p → s.lockHolder = some i) ∧
  (∀ i : Nat, s.phases[i]? = some Phase.drained → s.buffer = []) ∧
  (∀ i : Nat, s.phases[i]? = some Phase.written → s.buffer = [dev (cmds i)]) ∧
  (∀ (i : Nat) (r : String), s.phases[i]? = some (Phase.done r) → r = dev (cmds i))

end Serial

/-! ## Concrete states and environments used to instantiate the theorems -/

/-- A broker state with an established upstream connection. -/
def connState : BrokerState :=
  { initState with
    connected := true
    hasWriter := true
    stats := { initState.stats with connected := true } }

/-- Environment: connected exchange whose read times out with no data. -/
def envTimeout : SendEnv :=
  { connectOutcome := .success, exchange := .readTimeout,
    now := "2026-01-01T00:00:00" }

/-- Environment: the device answers `x1Vx1,x2Vx2`. -/
def envReply : SendEnv :=
  { connectOutcome := .success, exchange := .reply "x1Vx1,x2Vx2",
    now := "2026-01-01T00:00:00" }

/-- Environment: the inline connect attempt times out. -/
def envNoConn : SendEnv :=
  { connectOutcome := .timeoutErr, exchange := .reply "x1Vx1,x2Vx2",
    now := "2026-01-01T00:00:00" }

/-! ## C10: connect while already connected -/

/-- C10: calling `connect()` while `_connected` is already set returns `True`
immediately and is a pure no-op: the returned state is the input state, so in
particular `connection_attempts`, `successful_connections`,
`_reconnect_delay` and the connection handle are untouched. -/
theorem connect_already_connected (o : ConnectOutcome) (s : BrokerState)
    (h : s.connected = true) : connect o s = (true, s) := by
  simp [connect, h]

/-- Witness for `connect_already_connected` at a concrete connected state
and a failing physical outcome. -/
theorem connect_already_connected_witness :
    connState.connected = true ∧ connect .timeoutErr connState = (true, connState) :=
  ⟨rfl, connect_already_connected .timeoutErr connState rfl⟩

/-! ## C3: a read timeout is success with an empty response -/

/-- C3: when connected, a command whose response read times out (no data
within the command timeout) still returns `ok = true` with the empty
response, and `commands_processed` (not `commands_failed`) is incremented. -/
theorem read_timeout_success (env : SendEnv) (s : BrokerState) (cmd : String)
    (h1 : is_connected s = true) (h2 : env.exchange = .readTimeout) :
    (sendCommand env s cmd).ok = true ∧
    (sendCommand env s cmd).response = "" ∧
    (sendCommand env s cmd).state.stats.commands_processed
      = s.stats.commands_processed + 1 ∧
    (sendCommand env s cmd).state.stats.commands_failed
      = s.stats.commands_failed := by
  simp [sendCommand, h1, exchangePhase, h2]

/-- Witness for `read_timeout_success` on a connected state. -/
theorem read_timeout_success_witness :
    is_connected connState = true ∧ envTimeout.exchange = .readTimeout ∧
    (sendCommand envTimeout connState "PWSTA").ok = true ∧
    (sendCommand envTimeout connState "PWSTA").response = "" :=
  ⟨rfl, rfl,
    (read_timeout_success envTimeout connState "PWSTA" rfl rfl).1,
    (read_timeout_success envTimeout connState "PWSTA" rfl rfl).2.1⟩

/-! ## C7: command while disconnected makes one inline connect attempt -/

/-- C7: `send_command` while not connected performs exactly one inline
`connect()`; if it fails the call returns `ok = false` with the error
`Not connected to Atlona`, the trace shows nothing but the lock bracketing
and that single attempt (in particular no device write and no backoff
sleeping), and only the connection-attempt counter moves. -/
theorem send_not_connected (env : SendEnv) (s : BrokerState) (cmd : String)
    (h1 : s.connected = false) (h2 : s.connecting = false)
    (h3 : env.connectOutcome ≠ .success) :
    (sendCommand env s cmd).ok = false ∧
    (sendCommand env s cmd).response = "Not connected to Atlona" ∧
    (sendCommand env s cmd).trace = [.lockAcquire, .connectAttempt, .lockRelease] ∧
    (sendCommand env s cmd).trace.count .connectAttempt = 1 ∧
    (∀ d, Ev.write d ∉ (sendCommand env s cmd).trace) ∧
    (sendCommand env s cmd).state.stats.connection_attempts
      = s.stats.connection_attempts + 1 ∧
    (sendCommand env s cmd).state.stats.commands_processed
      = s.stats.commands_processed ∧
    (sendCommand env s cmd).state.stats.commands_failed
      = s.stats.commands_failed := by
  have hic : is_connected s = false := by simp [is_connected, h1]
  cases henv : env.connectOutcome with
  | success => exact absurd henv h3
  | timeoutErr =>
      refine ⟨?_, ?_, ?_, ?_, ?_, ?_, ?_, ?_⟩ <;>
        simp [sendCommand, hic, connect, h1, h2, henv, List.count_cons]
  | connErr m =>
      refine ⟨?_, ?_, ?_, ?_, ?_, ?_, ?_, ?_⟩ <;>
        simp [sendCommand, hic, connect, h1, h2, henv, List.count_cons]

/-- Witness for `send_not_connected`: fresh broker, unreachable device. -/
theorem send_not_connected_witness :
    initState.connected = false ∧ initState.connecting = false ∧
    envNoConn.connectOutcome ≠ ConnectOutcome.success ∧
    (sendCommand envNoConn initState "Status").response
      = "Not connected to Atlona" :=
  ⟨rfl, rfl, by decide,
    (send_not_connected envNoConn initState "Status" rfl rfl (by decide)).2.1⟩

/-! ## C5: empty commands -/

/-- C5 counterexample: `send_command` itself contains no emptiness check.
Called with the empty command on a connected broker it does acquire the
command lock and does write the bare terminator `"\r\n"` to the device.
The rejection of empty input lives in `handle_client`, not here. -/
theorem send_command_empty_not_rejected :
    Ev.lockAcquire ∈ (sendCommand envReply connState "").trace ∧
    Ev.write "\r\n" ∈ (sendCommand envReply connState "").trace := by decide

/-- C5 amended: every client line that is empty after stripping is filtered
by the `handle_client` dispatch (`if not command: continue`) before
`send_command` is ever called, so an empty client input never takes the
command lock and is never written upstream. -/
theorem empty_command_filtered (data : String) (h : pyStrip data = "") :
    dispatch data = Route.ignoreEmpty ∧
    ∀ c, dispatch data ≠ Route.forward c := by
  refine ⟨by simp [dispatch, h], ?_⟩
  intro c
  simp [dispatch, h]

/-- Witness for `empty_command_filtered` on a whitespace-only line. -/
theorem empty_command_filtered_witness :
    pyStrip " \r\n" = "" ∧ dispatch " \r\n" = Route.ignoreEmpty :=
  ⟨by decide, (empty_command_filtered " \r\n" (by decide)).1⟩

/-! ## C4: the `BROKER:` prefix -/

/-- C4 counterexample: the dispatcher only matches the three exact commands,
not the prefix. `BROKER:FOO` begins with the reserved prefix yet is routed
to `send_command` and forwarded to the upstream device. -/
theorem broker_prefix_still_forwarded :
    brokerPrefixed "BROKER:FOO" = true ∧
    dispatch "BROKER:FOO" = Route.forward "BROKER:FOO" := by decide

/-- C4 amended: exactly the three full-line, case-insensitive commands
`BROKER:STATUS`, `BROKER:RECONNECT` and `BROKER:WAIT` are handled locally;
every other non-empty line — including other lines that begin with
`BROKER:` — is forwarded verbatim to `send_command`. -/
theorem dispatch_characterization (data : String) (h : pyStrip data ≠ "") :
    (dispatch data = Route.brokerStatus ↔ pyUpper (pyStrip data) = "BROKER:STATUS") ∧
    (dispatch data = Route.brokerReconnect ↔ pyUpper (pyStrip data) = "BROKER:RECONNECT") ∧
    (dispatch data = Route.brokerWait ↔ pyUpper (pyStrip data) = "BROKER:WAIT") ∧
    (dispatch data = Route.forward (pyStrip data) ↔
      (pyUpper (pyStrip data) ≠ "BROKER:STATUS" ∧
       pyUpper (pyStrip data) ≠ "BROKER:RECONNECT" ∧
       pyUpper (pyStrip data) ≠ "BROKER:WAIT")) := by
  simp only [dispatch]
  split_ifs with h1 h2 h3 h4 <;> simp_all

/-- Witness for `dispatch_characterization`: an ordinary device command. -/
theorem dispatch_characterization_witness :
    pyStrip "Status" ≠ "" ∧ dispatch "Status" = Route.forward (pyStrip "Status") :=
  ⟨by decide,
    ((dispatch_characterization "Status" (by decide)).2.2.2).mpr
      ⟨by decide, by decide, by decide⟩⟩

/-! ## C8: `BROKER:WAIT` -/

lemma waitFromAux_le (conn : Nat → Bool) :
    ∀ fuel w, waitFromAux conn w fuel ≤ w + fuel := by
  intro fuel
  induction fuel with
  | zero => intro w; simp [waitFromAux]
  | succ f ih =>
      intro w
      simp only [waitFromAux]
      split
      · omega
      · have := ih (w + 1)
        omega

lemma waitFromAux_conn (conn : Nat → Bool) :
    ∀ fuel w, conn (waitFromAux conn w fuel) = true ↔
      ∃ t, w ≤ t ∧ t ≤ w + fuel ∧ conn t = true := by
  intro fuel
  induction fuel with
  | zero =>
      intro w
      simp only [waitFromAux]
      constructor
      · intro h; exact ⟨w, le_refl w, by omega, h⟩
      · rintro ⟨t, h1, h2, h3⟩
        have : t = w := by omega
        simpa [this] using h3
  | succ f ih =>
      intro w
      simp only [waitFromAux]
      by_cases hc : conn w = true
      · rw [if_pos hc]
        constructor
        · intro _; exact ⟨w, le_refl w, by omega, hc⟩
        · intro _; exact hc
      · rw [if_neg hc]
        rw [ih (w + 1)]
        constructor
        · rintro ⟨t, h1, h2, h3⟩
          exact ⟨t, by omega, by omega, h3⟩
        · rintro ⟨t, h1, h2, h3⟩
          refine ⟨t, ?_, by omega, h3⟩
          rcases Nat.eq_or_lt_of_le h1 with h | h
          · subst h; simp [h3] at hc
          · omega

/-- C8 counterexample: the success reply written by `BROKER:WAIT` is the
line `OK: Connected`, not the bare literal `OK` the claim states. -/
theorem broker_wait_reply_not_bare_ok :
    waitReply (fun _ => true) = "OK: Connected" ∧
    waitReply (fun _ => true) ≠ "OK" := by decide

/-- C8 amended: a `BROKER:WAIT` line polls `is_connected` at 1-unit
intervals, sleeping at most 30 times; the client receives the success reply
`OK: Connected` exactly when the connection is (or becomes) established at
some poll within the bound, and `ERROR: Connection timeout` otherwise. -/
theorem broker_wait_bounded_poll (conn : Nat → Bool) :
    dispatch "BROKER:WAIT" = Route.brokerWait ∧
    waitSleeps conn ≤ 30 ∧
    (waitReply conn = "OK: Connected" ↔ ∃ t, t ≤ 30 ∧ conn t = true) ∧
    (waitReply conn = "ERROR: Connection timeout" ↔
      ¬ ∃ t, t ≤ 30 ∧ conn t = true) := by
  have hb : waitSleeps conn ≤ 30 := by
    have := waitFromAux_le conn 30 0
    simpa [waitSleeps, waitFrom] using this
  have hiff : conn (waitFrom conn 0) = true ↔ ∃ t, t ≤ 30 ∧ conn t = true := by
    rw [show waitFrom conn 0 = waitFromAux conn 0 30 from rfl,
        waitFromAux_conn conn 30 0]
    constructor
    · rintro ⟨t, _, h2, h3⟩; exact ⟨t, by omega, h3⟩
    · rintro ⟨t, h1, h2⟩; exact ⟨t, by omega, by omega, h2⟩
  refine ⟨by decide, hb, ?_, ?_⟩
  · rw [waitReply]
    by_cases hc : conn (waitFrom conn 0)
    · simp only [hc, if_true]
      simpa using hiff.mp hc
    · simp only [hc, if_false]
      constructor
      · intro h; exact absurd h (by decide)
      · intro h
        exact absurd (hiff.mpr h) (by simp [hc])
  · rw [waitReply]
    by_cases hc : conn (waitFrom conn 0)
    · simp only [hc, if_true]
      constructor
      · intro h; exact absurd h (by decide)
      · intro h; exact absurd (hiff.mp hc) h
    · simp only [hc, if_false]
      constructor
      · intro _ h
        exact absurd (hiff.mpr h) (by simp [hc])
      · intro _; rfl

/-! ## C2: reconnect backoff sequence -/

lemma reconnectLoop_delays (n : Nat) (rest : List ConnectOutcome) :
    ∀ s : BrokerState, s.connected = false → s.connecting = false →
      (reconnectLoop (List.replicate n .timeoutErr ++ .success :: rest) s).2
        = expectedDelays n s.reconnect_delay ∧
      (reconnectLoop (List.replicate n .timeoutErr ++ .success :: rest) s).1.connected
        = true ∧
      (reconnectLoop (List.replicate n .timeoutErr ++ .success :: rest) s).1.reconnect_delay
        = 1 := by
  induction n with
  | zero =>
      intro s h1 h2
      simp [reconnectLoop, connect, h1, h2, expectedDelays]
  | succ n ih =>
      intro s h1 h2
      obtain ⟨sc, sg, sw, sst, sd, scl⟩ := s
      replace h1 : sc = false := h1
      replace h2 : sg = false := h2
      subst h1
      subst h2
      have key := ih
        ⟨false, false, sw,
          { sst with
            connection_attempts := sst.connection_attempts + 1
            last_error := some "Connection timeout" },
          min (sd * 2) 30, scl⟩ rfl rfl
      simp only [List.replicate_succ, List.cons_append, reconnectLoop, connect,
        Bool.false_eq_true, if_false, expectedDelays]
      exact ⟨congrArg (fun l => sd :: l) key.1, key.2.1, key.2.2⟩

lemma expectedDelays_pow (n : Nat) :
    ∀ k, expectedDelays n (min (2 ^ k) 30)
      = (List.range (n + 1)).map (fun i => min (2 ^ (k + i)) 30) := by
  induction n with
  | zero =>
      intro k
      rw [show List.range 1 = [0] from rfl]
      simp [expectedDelays]
  | succ n ih =>
      intro k
      have h2 : min (min (2 ^ k) 30 * 2) 30 = min (2 ^ (k + 1)) 30 := by
        have hp : 2 ^ (k + 1) = 2 ^ k * 2 := by rw [pow_succ]
        omega
      rw [expectedDelays, h2, ih (k + 1)]
      conv_rhs => rw [List.range_succ_eq_map]
      simp only [List.map_cons, List.map_map]
      refine List.cons_eq_cons.mpr ⟨by simp, ?_⟩
      apply List.map_congr_left
      intro a _
      simp only [Function.comp_apply, Nat.succ_eq_add_one]
      have hx : k + 1 + a = k + (a + 1) := by omega
      rw [hx]

/-- C2: starting from the minimum delay, `reconnect()` after `n` consecutive
failed attempts followed by a success sleeps exactly the delays
`min(2^i, 30)` for `i = 0..n` — that is `1, 2, 4, 8, 16, 30, 30, 30, …` —
stops looping at the first successful `connect()` (later outcomes are never
consumed), ends connected, and any successful connect resets the delay to
the minimum 1 so the next failure sequence starts over. -/
theorem reconnect_backoff_sequence (n : Nat) (rest : List ConnectOutcome)
    (s : BrokerState) (hc : s.connecting = false) (hd : s.reconnect_delay = 1) :
    (reconnect (List.replicate n .timeoutErr ++ .success :: rest) s).2
      = (List.range (n + 1)).map (fun i => min (2 ^ i) 30) ∧
    (reconnect (List.replicate n .timeoutErr ++ .success :: rest) s).1.connected
      = true ∧
    (reconnect (List.replicate n .timeoutErr ++ .success :: rest) s).1.reconnect_delay
      = 1 ∧
    (∀ t : BrokerState, t.connected = false → t.connecting = false →
      ((connect .success t).2).reconnect_delay = 1) := by
  have hmain := reconnectLoop_delays n rest (disconnect s)
    (by simp [disconnect]) (by simp [disconnect, hc])
  have hdel : (disconnect s).reconnect_delay = 1 := by simp [disconnect, hd]
  have hpow := expectedDelays_pow n 0
  have h1 : min (2 ^ 0 : Nat) 30 = 1 := by norm_num
  rw [h1] at hpow
  refine ⟨?_, hmain.2.1, hmain.2.2, ?_⟩
  · rw [show reconnect (List.replicate n .timeoutErr ++ .success :: rest) s
        = reconnectLoop (List.replicate n .timeoutErr ++ .success :: rest)
            (disconnect s) from rfl,
      hmain.1, hdel, hpow]
    simp
  · intro t h1t h2t
    simp [connect, h1t, h2t]

/-- Witness for `reconnect_backoff_sequence`: seven straight failures from a
fresh broker sleep exactly `1, 2, 4, 8, 16, 30, 30, 30`. -/
theorem reconnect_backoff_sequence_witness :
    initState.connecting = false ∧ initState.reconnect_delay = 1 ∧
    (reconnect (List.replicate 7 .timeoutErr ++ [.success]) initState).2
      = [1, 2, 4, 8, 16, 30, 30, 30] :=
  ⟨rfl, rfl,
    ((reconnect_backoff_sequence 7 [] initState rfl rfl).1).trans (by decide)⟩

/-! ## C6: statistics accounting in `send_command` -/

lemma exchangePhase_stats (env : SendEnv) (cmd : String) (s1 : BrokerState)
    (evs : List Ev) :
    ((exchangePhase env cmd s1 evs).ok = true →
      (exchangePhase env cmd s1 evs).state.stats.commands_processed
        = s1.stats.commands_processed + 1 ∧
      (exchangePhase env cmd s1 evs).state.stats.commands_failed
        = s1.stats.commands_failed ∧
      (exchangePhase env cmd s1 evs).state.stats.last_command_at
        = some env.now) ∧
    ((exchangePhase env cmd s1 evs).ok = false →
      (exchangePhase env cmd s1 evs).state.stats.commands_processed
        = s1.stats.commands_processed ∧
      (exchangePhase env cmd s1 evs).state.stats.commands_failed
        = s1.stats.commands_failed + 1 ∧
      (exchangePhase env cmd s1 evs).state.stats.last_error
        = some (exchangePhase env cmd s1 evs).response) := by
  cases hx : env.exchange <;> simp [exchangePhase, hx]

lemma connect_command_stats (o : ConnectOutcome) (s : BrokerState) :
    ((connect o s).2).stats.commands_processed = s.stats.commands_processed ∧
    ((connect o s).2).stats.commands_failed = s.stats.commands_failed ∧
    ((connect o s).2).stats.last_command_at = s.stats.last_command_at := by
  cases o <;> simp only [connect] <;> split_ifs <;> simp

lemma connect_false_error (o : ConnectOutcome) (s : BrokerState)
    (hc : s.connecting = false) (h : (connect o s).1 = false) :
    ((connect o s).2).stats.last_error ≠ none := by
  by_cases hcc : s.connected = true
  · simp [connect, hcc] at h
  · have hcc2 : s.connected = false := by
      cases hb : s.connected
      · rfl
      · exact absurd hb hcc
    cases o
    · simp [connect, hcc2, hc] at h
    · simp [connect, hcc2, hc]
    · simp [connect, hcc2, hc]

/-- C6 counterexample: a `send_command` whose inline connect fails returns
`ok = false`, yet `commands_failed` is not incremented (the early-return path
touches neither command counter — only `connect` has recorded `last_error`).
The claim that `commands_failed` is incremented exactly when `ok = false` is
therefore false on the code. -/
theorem send_fail_without_failed_increment :
    (sendCommand envNoConn initState "Status").ok = false ∧
    (sendCommand envNoConn initState "Status").state.stats.commands_failed
      = initState.stats.commands_failed := by decide

/-- C6 amended: `commands_processed` is incremented exactly when the result
is `ok = true` (together with the `last_command_at` timestamp);
on `ok = false` `commands_processed` is untouched and either the exchange
failed — `commands_failed` is incremented and `last_error` records the
returned error — or the inline connect failed, in which case both command
counters are untouched but `last_error` has been recorded by `connect()`.
So no failure path leaves the counters and `last_error` both untouched. -/
theorem send_command_stats_accounting (env : SendEnv) (s : BrokerState)
    (cmd : String) (hc : s.connecting = false) :
    ((sendCommand env s cmd).ok = true →
      (sendCommand env s cmd).state.stats.commands_processed
        = s.stats.commands_processed + 1 ∧
      (sendCommand env s cmd).state.stats.commands_failed
        = s.stats.commands_failed ∧
      (sendCommand env s cmd).state.stats.last_command_at = some env.now) ∧
    ((sendCommand env s cmd).ok = false →
      (sendCommand env s cmd).state.stats.commands_processed
        = s.stats.commands_processed ∧
      ((sendCommand env s cmd).state.stats.commands_failed
          = s.stats.commands_failed + 1 ∧
        (sendCommand env s cmd).state.stats.last_error
          = some (sendCommand env s cmd).response ∨
       (sendCommand env s cmd).state.stats.commands_failed
          = s.stats.commands_failed ∧
        (sendCommand env s cmd).state.stats.last_error ≠ none)) := by
  by_cases hi : is_connected s = true
  · have hsc : sendCommand env s cmd = exchangePhase env cmd s [.lockAcquire] := by
      simp [sendCommand, hi]
    rw [hsc]
    have hep := exchangePhase_stats env cmd s [.lockAcquire]
    refine ⟨hep.1, fun hok => ?_⟩
    obtain ⟨a, b, c⟩ := hep.2 hok
    exact ⟨a, Or.inl ⟨b, c⟩⟩
  · have hi2 : is_connected s = false := by
      cases hb : is_connected s
      · rfl
      · exact absurd hb hi
    have h1 := connect_command_stats env.connectOutcome s
    rcases hcr : connect env.connectOutcome s with ⟨b, s1⟩
    rw [hcr] at h1
    cases b
    · have hfe := connect_false_error env.connectOutcome s hc (by rw [hcr])
      rw [hcr] at hfe
      have hsc : sendCommand env s cmd =
          { ok := false, response := "Not connected to Atlona", state := s1,
            trace := [.lockAcquire, .connectAttempt, .lockRelease] } := by
        simp [sendCommand, hi2, hcr]
      rw [hsc]
      exact ⟨by simp, fun _ => ⟨h1.1, Or.inr ⟨h1.2.1, hfe⟩⟩⟩
    · have hsc : sendCommand env s cmd
          = exchangePhase env cmd s1 [.lockAcquire, .connectAttempt] := by
        simp [sendCommand, hi2, hcr]
      rw [hsc]
      have hep := exchangePhase_stats env cmd s1 [.lockAcquire, .connectAttempt]
      constructor
      · intro hok
        obtain ⟨a, b2, c⟩ := hep.1 hok
        exact ⟨by rw [a, h1.1], by rw [b2, h1.2.1], c⟩
      · intro hok
        obtain ⟨a, b2, c⟩ := hep.2 hok
        exact ⟨by rw [a, h1.1], Or.inl ⟨by rw [b2, h1.2.1], c⟩⟩

/-- Witness for `send_command_stats_accounting`: a successful exchange on a
connected broker bumps `commands_processed`. -/
theorem send_command_stats_accounting_witness :
    connState.connecting = false ∧
    (sendCommand envReply connState "Status").ok = true ∧
    (sendCommand envReply connState "Status").state.stats.commands_processed
      = connState.stats.commands_processed + 1 :=
  ⟨rfl, by decide,
    ((send_command_stats_accounting envReply connState "Status" rfl).1
      (by decide)).1⟩

/-! ## C9: counters are monotone, active-client count is exact -/

/-- The four cumulative counters never decrease between two stats records. -/
def statsMono (a b : BrokerStats) : Prop :=
  a.connection_attempts ≤ b.connection_attempts ∧
  a.successful_connections ≤ b.successful_connections ∧
  a.commands_processed ≤ b.commands_processed ∧
  a.commands_failed ≤ b.commands_failed

lemma statsMono_refl (a : BrokerStats) : statsMono a a :=
  ⟨le_refl _, le_refl _, le_refl _, le_refl _⟩

lemma statsMono_trans {a b c : BrokerStats} (h1 : statsMono a b)
    (h2 : statsMono b c) : statsMono a c :=
  ⟨le_trans h1.1 h2.1, le_trans h1.2.1 h2.2.1, le_trans h1.2.2.1 h2.2.2.1,
   le_trans h1.2.2.2 h2.2.2.2⟩

lemma connect_mono (o : ConnectOutcome) (s : BrokerState) :
    statsMono s.stats ((connect o s).2).stats := by
  cases o <;> simp only [connect] <;> split_ifs <;> simp [statsMono]

lemma connect_clients (o : ConnectOutcome) (s : BrokerState) :
    ((connect o s).2).clients = s.clients ∧
    ((connect o s).2).stats.active_clients = s.stats.active_clients := by
  cases o <;> simp only [connect] <;> split_ifs <;> simp

lemma exchangePhase_mono (env : SendEnv) (cmd : String) (s1 : BrokerState)
    (evs : List Ev) :
    statsMono s1.stats ((exchangePhase env cmd s1 evs).state).stats ∧
    ((exchangePhase env cmd s1 evs).state).clients = s1.clients ∧
    ((exchangePhase env cmd s1 evs).state).stats.active_clients
      = s1.stats.active_clients := by
  cases hx : env.exchange <;> simp [exchangePhase, hx, statsMono]

lemma sendCommand_mono (env : SendEnv) (s : BrokerState) (cmd : String) :
    statsMono s.stats ((sendCommand env s cmd).state).stats ∧
    ((sendCommand env s cmd).state).clients = s.clients ∧
    ((sendCommand env s cmd).state).stats.active_clients
      = s.stats.active_clients := by
  by_cases hi : is_connected s = true
  · have hsc : sendCommand env s cmd = exchangePhase env cmd s [.lockAcquire] := by
      simp [sendCommand, hi]
    rw [hsc]
    exact exchangePhase_mono env cmd s [.lockAcquire]
  · have hi2 : is_connected s = false := by
      cases hb : is_connected s
      · rfl
      · exact absurd hb hi
    have hm := connect_mono env.connectOutcome s
    have hcl := connect_clients env.connectOutcome s
    rcases hcr : connect env.connectOutcome s with ⟨b, s1⟩
    rw [hcr] at hm hcl
    cases b
    · have hsc : sendCommand env s cmd =
          { ok := false, response := "Not connected to Atlona", state := s1,
            trace := [.lockAcquire, .connectAttempt, .lockRelease] } := by
        simp [sendCommand, hi2, hcr]
      rw [hsc]
      exact ⟨hm, hcl.1, hcl.2⟩
    · have hsc : sendCommand env s cmd
          = exchangePhase env cmd s1 [.lockAcquire, .connectAttempt] := by
        simp [sendCommand, hi2, hcr]
      rw [hsc]
      have hep := exchangePhase_mono env cmd s1 [.lockAcquire, .connectAttempt]
      exact ⟨statsMono_trans hm hep.1, by rw [hep.2.1, hcl.1],
        by rw [hep.2.2, hcl.2]⟩

lemma reconnectLoop_mono :
    ∀ (outs : List ConnectOutcome) (s : BrokerState),
      statsMono s.stats ((reconnectLoop outs s).1).stats ∧
      ((reconnectLoop outs s).1).clients = s.clients ∧
      ((reconnectLoop outs s).1).stats.active_clients
        = s.stats.active_clients := by
  intro outs
  induction outs with
  | nil => intro s; exact ⟨statsMono_refl _, rfl, rfl⟩
  | cons o os ih =>
      intro s
      by_cases hcn : s.connected = true
      · have hred : reconnectLoop (o :: os) s = (s, []) := by
          simp [reconnectLoop, hcn]
        rw [hred]
        exact ⟨statsMono_refl _, rfl, rfl⟩
      · have hcn2 : s.connected = false := by
          cases hb : s.connected
          · rfl
          · exact absurd hb hcn
        have hm := connect_mono o s
        have hcl := connect_clients o s
        rcases hcr : connect o s with ⟨b, s1⟩
        rw [hcr] at hm hcl
        cases b
        · have hred : reconnectLoop (o :: os) s =
              ((reconnectLoop os
                  { s1 with reconnect_delay := min (s1.reconnect_delay * 2) 30 }).1,
               s.reconnect_delay ::
                 (reconnectLoop os
                   { s1 with reconnect_delay := min (s1.reconnect_delay * 2) 30 }).2) := by
            simp [reconnectLoop, hcn2, hcr]
          rw [hred]
          have hkey := ih { s1 with reconnect_delay := min (s1.reconnect_delay * 2) 30 }
          exact ⟨statsMono_trans hm hkey.1, by rw [hkey.2.1, hcl.1],
            by rw [hkey.2.2, hcl.2]⟩
        · have hred : reconnectLoop (o :: os) s = (s1, [s.reconnect_delay]) := by
            simp [reconnectLoop, hcn2, hcr]
          rw [hred]
          exact ⟨hm, hcl.1, hcl.2⟩

lemma disconnect_mono (s : BrokerState) :
    statsMono s.stats (disconnect s).stats ∧
    (disconnect s).clients = s.clients ∧
    (disconnect s).stats.active_clients = s.stats.active_clients := by
  simp [disconnect, statsMono]

/-- C9: every broker operation — connect, disconnect, reconnect,
`send_command`, client registration and unregistration — leaves the four
cumulative counters (`connection_attempts`, `successful_connections`,
`commands_processed`, `commands_failed`) non-decreasing, and preserves the
invariant that `active_clients` equals the number of currently registered
client sessions (only that count may also decrease). -/
theorem broker_stats_invariants (op : BrokerOp) (s : BrokerState) :
    statsMono s.stats ((applyOp op s)).stats ∧
    (clientsInv s → clientsInv (applyOp op s)) := by
  cases op with
  | opConnect o =>
      refine ⟨connect_mono o s, fun hiv => ?_⟩
      have hcl := connect_clients o s
      exact ⟨by rw [applyOp, hcl.2, hcl.1, hiv.1], by rw [applyOp, hcl.1]; exact hiv.2⟩
  | opDisconnect =>
      refine ⟨(disconnect_mono s).1, fun hiv => ?_⟩
      have hcl := disconnect_mono s
      exact ⟨by rw [applyOp, hcl.2.2, hcl.2.1, hiv.1],
        by rw [applyOp, hcl.2.1]; exact hiv.2⟩
  | opReconnect outs =>
      have hd := disconnect_mono s
      have hl := reconnectLoop_mono outs (disconnect s)
      refine ⟨statsMono_trans hd.1 hl.1, fun hiv => ?_⟩
      constructor
      · rw [applyOp, reconnect, hl.2.2, hl.2.1, hd.2.2, hd.2.1, hiv.1]
      · rw [applyOp, reconnect, hl.2.1, hd.2.1]
        exact hiv.2
  | opSend env cmd =>
      have hm := sendCommand_mono env s cmd
      refine ⟨hm.1, fun hiv => ?_⟩
      exact ⟨by rw [applyOp, hm.2.2, hm.2.1, hiv.1],
        by rw [applyOp, hm.2.1]; exact hiv.2⟩
  | opClientJoin cid =>
      refine ⟨by simp [applyOp, clientJoin, statsMono], fun hiv => ?_⟩
      by_cases hmem : cid ∈ s.clients
      · exact ⟨by simp [applyOp, clientJoin, hmem], by simp [applyOp, clientJoin, hmem, hiv.2]⟩
      · refine ⟨by simp [applyOp, clientJoin, hmem], ?_⟩
        have hcs : (applyOp (.opClientJoin cid) s).clients = cid :: s.clients := by
          simp [applyOp, clientJoin, hmem]
        rw [hcs]
        exact List.nodup_cons.mpr ⟨hmem, hiv.2⟩
  | opClientLeave cid =>
      refine ⟨by simp [applyOp, clientLeave, statsMono], fun hiv => ?_⟩
      exact ⟨by simp [applyOp, clientLeave],
        by simp [applyOp, clientLeave]; exact hiv.2.erase cid⟩

/-- Witness for `broker_stats_invariants`: registering the first client. -/
theorem broker_stats_invariants_witness :
    clientsInv initState ∧
    statsMono initState.stats
      ((applyOp (.opClientJoin "10.0.0.5:51000") initState)).stats ∧
    clientsInv (applyOp (.opClientJoin "10.0.0.5:51000") initState) :=
  ⟨⟨rfl, List.nodup_nil⟩,
   (broker_stats_invariants (.opClientJoin "10.0.0.5:51000") initState).1,
   (broker_stats_invariants (.opClientJoin "10.0.0.5:51000") initState).2
     ⟨rfl, List.nodup_nil⟩⟩

/-! ## C1: serialization of concurrent clients -/

namespace Serial

lemma readAll_single (x : String) : readAll [x] = x := rfl

lemma initSys_inv (cmds : Nat → String) (dev : String → String) (n : Nat)
    (junk : List String) : Inv cmds dev (initSys n junk) := by
  refine ⟨?_, ?_, ?_, ?_⟩
  · intro i p hp hm
    simp only [initSys, List.getElem?_replicate] at hp
    split at hp
    · have hpp := Option.some.inj hp
      subst hpp
      simp [midPhase] at hm
    · exact Option.noConfusion hp
  · intro i hp
    simp only [initSys, List.getElem?_replicate] at hp
    split at hp <;> simp_all
  · intro i hp
    simp only [initSys, List.getElem?_replicate] at hp
    split at hp <;> simp_all
  · intro i r hp
    simp only [initSys, List.getElem?_replicate] at hp
    split at hp <;> simp_all

lemma step_inv (cmds : Nat → String) (dev : String → String) (l : Label)
    (s t : SysState) (hst : step cmds dev l s = some t)
    (hs : Inv cmds dev s) : Inv cmds dev t := by
  obtain ⟨h1, h2, h3, h4⟩ := hs
  cases l with
  | acquire i =>
      simp only [step] at hst
      split at hst
      · rename_i hcond
        obtain ⟨hl, hp⟩ := hcond
        cases hst
        refine ⟨?_, ?_, ?_, ?_⟩
        · intro j p hj hm
          simp only [List.getElem?_set'] at hj
          by_cases hij : i = j
          · subst hij
            rfl
          · rw [if_neg hij] at hj
            have hx := h1 j p hj hm
            rw [hl] at hx
            exact Option.noConfusion hx
        · intro j hj
          simp only [List.getElem?_set'] at hj
          by_cases hij : i = j
          · subst hij
            rw [hp] at hj
            simp at hj
          · rw [if_neg hij] at hj
            have hx := h1 j Phase.drained hj trivial
            rw [hl] at hx
            exact Option.noConfusion hx
        · intro j hj
          simp only [List.getElem?_set'] at hj
          by_cases hij : i = j
          · subst hij
            rw [hp] at hj
            simp at hj
          · rw [if_neg hij] at hj
            have hx := h1 j Phase.written hj trivial
            rw [hl] at hx
            exact Option.noConfusion hx
        · intro j r hj
          simp only [List.getElem?_set'] at hj
          by_cases hij : i = j
          · subst hij
            rw [hp] at hj
            simp at hj
          · rw [if_neg hij] at hj
            exact h4 j r hj
      · exact Option.noConfusion hst
  | drain i =>
      simp only [step] at hst
      split at hst
      · rename_i hcond
        obtain ⟨hl, hp⟩ := hcond
        cases hst
        refine ⟨?_, ?_, ?_, ?_⟩
        · intro j p hj hm
          simp only [List.getElem?_set'] at hj
          by_cases hij : i = j
          · subst hij
            exact hl
          · rw [if_neg hij] at hj
            have hx := h1 j p hj hm
            rw [hl] at hx
            exact absurd (Option.some.inj hx) hij
        · intro j hj
          rfl
        · intro j hj
          simp only [List.getElem?_set'] at hj
          by_cases hij : i = j
          · subst hij
            rw [hp] at hj
            simp at hj
          · rw [if_neg hij] at hj
            have hx := h1 j Phase.written hj trivial
            rw [hl] at hx
            exact absurd (Option.some.inj hx) hij
        · intro j r hj
          simp only [List.getElem?_set'] at hj
          by_cases hij : i = j
          · subst hij
            rw [hp] at hj
            simp at hj
          · rw [if_neg hij] at hj
            exact h4 j r hj
      · exact Option.noConfusion hst
  | write i =>
      simp only [step] at hst
      split at hst
      · rename_i hcond
        obtain ⟨hl, hp⟩ := hcond
        have hbuf := h2 i hp
        cases hst
        refine ⟨?_, ?_, ?_, ?_⟩
        · intro j p hj hm
          simp only [List.getElem?_set'] at hj
          by_cases hij : i = j
          · subst hij
            exact hl
          · rw [if_neg hij] at hj
            have hx := h1 j p hj hm
            rw [hl] at hx
            exact absurd (Option.some.inj hx) hij
        · intro j hj
          simp only [List.getElem?_set'] at hj
          by_cases hij : i = j
          · subst hij
            rw [hp] at hj
            simp at hj
          · rw [if_neg hij] at hj
            have hx := h1 j Phase.drained hj trivial
            rw [hl] at hx
            exact absurd (Option.some.inj hx) hij
        · intro j hj
          simp only [List.getElem?_set'] at hj
          by_cases hij : i = j
          · subst hij
            simp [hbuf]
          · rw [if_neg hij] at hj
            have hx := h1 j Phase.written hj trivial
            rw [hl] at hx
            exact absurd (Option.some.inj hx) hij
        · intro j r hj
          simp only [List.getElem?_set'] at hj
          by_cases hij : i = j
          · subst hij
            rw [hp] at hj
            simp at hj
          · rw [if_neg hij] at hj
            exact h4 j r hj
      · exact Option.noConfusion hst
  | readRelease i =>
      simp only [step] at hst
      split at hst
      · rename_i hcond
        obtain ⟨hl, hp⟩ := hcond
        have hbuf := h3 i hp
        cases hst
        refine ⟨?_, ?_, ?_, ?_⟩
        · intro j p hj hm
          simp only [List.getElem?_set'] at hj
          by_cases hij : i = j
          · subst hij
            rw [hp] at hj
            simp at hj
            subst hj
            simp [midPhase] at hm
          · rw [if_neg hij] at hj
            have hx := h1 j p hj hm
            rw [hl] at hx
            exact absurd (Option.some.inj hx) hij
        · intro j hj
          rfl
        · intro j hj
          simp only [List.getElem?_set'] at hj
          by_cases hij : i = j
          · subst hij
            rw [hp] at hj
            simp at hj
          · rw [if_neg hij] at hj
            have hx := h1 j Phase.written hj trivial
            rw [hl] at hx
            exact absurd (Option.some.inj hx) hij
        · intro j r hj
          simp only [List.getElem?_set'] at hj
          by_cases hij : i = j
          · subst hij
            rw [hp] at hj
            simp at hj
            rw [← hj, hbuf, readAll_single]
          · rw [if_neg hij] at hj
            exact h4 j r hj
      · exact Option.noConfusion hst

lemma run_inv (cmds : Nat → String) (dev : String → String) :
    ∀ (labels : List Label) (s t : SysState),
      run cmds dev labels s = some t → Inv cmds dev s → Inv cmds dev t := by
  intro labels
  induction labels with
  | nil =>
      intro s t h hs
      cases h
      exact hs
  | cons l ls ih =>
      intro s t h hs
      simp only [run] at h
      rcases hstep : step cmds dev l s with _ | s1
      · rw [hstep] at h
        exact Option.noConfusion h
      · rw [hstep] at h
        exact ih s1 t h (step_inv cmds dev l s s1 hstep hs)

end Serial

/-- C1: over every interleaving of any number of client tasks running
`send_command` concurrently (any schedule the lock admits), every task that
completes receives exactly the device's response to its own command — never
another client's — and at any instant at most one task is inside the
command/response critical section, so no two device writes are ever
outstanding simultaneously. -/
theorem send_command_serialized (cmds : Nat → String) (dev : String → String)
    (n : Nat) (junk : List String) (labels : List Serial.Label)
    (s : Serial.SysState)
    (h : Serial.run cmds dev labels (Serial.initSys n junk) = some s) :
    (∀ (i : Nat) (r : String),
        s.phases[i]? = some (Serial.Phase.done r) → r = dev (cmds i)) ∧
    (∀ (i j : Nat) (p q : Serial.Phase),
        s.phases[i]? = some p → s.phases[j]? = some q →
        Serial.midPhase p → Serial.midPhase q → i = j) := by
  have hinv := Serial.run_inv cmds dev labels (Serial.initSys n junk) s h
    (Serial.initSys_inv cmds dev n junk)
  refine ⟨hinv.2.2.2, ?_⟩
  intro i j p q hi hj hp hq
  have hx := hinv.1 i p hi hp
  have hy := hinv.1 j q hj hq
  rw [hx] at hy
  exact Option.some.inj hy

/-- Commands of the two clients in the serialization witness. -/
def wCmds : Nat → String := fun i => if i = 0 then "Status" else "x1AVx1"

/-- Device behaviour in the serialization witness. -/
def wDev : String → String := fun c => "R:" ++ c

/-- A schedule: client 0 completes a full exchange, then client 1 does. -/
def wLabels : List Serial.Label :=
  [.acquire 0, .drain 0, .write 0, .readRelease 0,
   .acquire 1, .drain 1, .write 1, .readRelease 1]

/-- The final state of the serialization witness schedule. -/
def wFinal : Serial.SysState :=
  { lockHolder := none,
    phases := [.done "R:Status", .done "R:x1AVx1"],
    buffer := [] }

/-- Witness for `send_command_serialized`: two clients, a stale chunk in the
buffer, one full exchange each; client 0's completed response is the device's
reply to client 0's own command. -/
theorem send_command_serialized_witness :
    Serial.run wCmds wDev wLabels (Serial.initSys 2 ["stale"]) = some wFinal ∧
    "R:Status" = wDev (wCmds 0) :=
  have h : Serial.run wCmds wDev wLabels (Serial.initSys 2 ["stale"])
      = some wFinal := by decide
  ⟨h, (send_command_serialized wCmds wDev 2 ["stale"] wLabels wFinal h).1 0
    "R:Status" (by decide)⟩

end AtlonaBroker
